import Mathlib

/-!
Verification development for the smartcloud-ai content-intelligence core.

The Python sources under `app/ai/` are shallowly embedded here.  Strings are
modelled as `List Char` (`Str`); the Python string primitives used by the code
(`strip`, `lower`, `split`, `in`, slicing, `join`, `endswith`) are given
executable Lean counterparts with the same semantics on the inputs the
programs handle.  Network calls made by the remote provider clients are the
only non-deterministic inputs; they are modelled as parameters (`ApiOutcome`
fields of `Config`).  Everything else is translated directly from the code.
-/

set_option maxRecDepth 8000

abbrev Str := List Char

/-- A short alias for `String.data`, turning a literal into the `List Char`
model used throughout the development. -/
def str (s : String) : Str := s.data

/-- ASCII/Latin-1 whitespace recognised by Python `str.strip` and `str.split`
on the texts this code base handles. -/
def isWS (c : Char) : Bool :=
  c == ' ' || c == '\t' || c == '\n' || c == '\r' || c == '\x0b' || c == '\x0c'

/-- Python `s.rstrip()`. -/
def trimRight (l : Str) : Str := (l.reverse.dropWhile isWS).reverse

/-- Python `s.strip()`. -/
def trimList (l : Str) : Str := trimRight (l.dropWhile isWS)

/-- Python `s.lower()` (ASCII). -/
def pyLower (l : Str) : Str := l.map Char.toLower

/-- Python substring test `needle in hay`. -/
def containsL (needle : Str) : Str → Bool
  | [] => needle.isEmpty
  | c :: rest => needle.isPrefixOf (c :: rest) || containsL needle rest

/-- Split on every character satisfying `p`, keeping empty pieces (the
behaviour of splitting on each single delimiter character). -/
def splitP (p : Char → Bool) : Str → List Str
  | [] => [[]]
  | c :: rest =>
    if p c then [] :: splitP p rest
    else
      match splitP p rest with
      | [] => [[c]]
      | t :: ts => (c :: t) :: ts

/-- Python `s.split(sep)` for a non-empty separator: a left-to-right scan
emitting the accumulated piece at each non-overlapping occurrence of `sep`.
The scan consumes at least one character per step, so running it with the
length of the string as fuel computes the full split (structural recursion on
the fuel keeps the definition kernel-reducible). -/
def pySplitAux (sep : Str) : Nat → Str → Str → List Str
  | _, acc, [] => [acc]
  | 0, acc, s => [acc ++ s]
  | fuel + 1, acc, c :: rest =>
    if sep ≠ [] ∧ sep.isPrefixOf (c :: rest) then
      acc :: pySplitAux sep fuel [] (rest.drop (sep.length - 1))
    else
      pySplitAux sep fuel (acc.concat c) rest

/-- Python `s.split(sep)`. -/
def pySplit (sep s : Str) : List Str := pySplitAux sep s.length [] s

/-- Python `s.split(sep)[-1]`: the text after the last (non-overlapping)
occurrence of `sep`. -/
def lastSplit (sep s : Str) : Str := (pySplit sep s).getLastD []

/-- Python `s.split()` (no argument): split on whitespace runs, dropping
empty pieces. -/
def splitWS (l : Str) : List Str := (splitP isWS l).filter (fun s => !s.isEmpty)

/-- Python `s.endswith(suffix)`. -/
def endsWithL (l suffix : Str) : Bool := suffix.isSuffixOf l

/-- Python `sep.join(pieces)`. -/
def intercal (sep : Str) (ls : List Str) : Str := List.intercalate sep ls

namespace Tagging

/-! Embedding of `app/ai/tagging.py` (`AITaggingSystem`).  The file-reading
helpers are out of scope; the claims concern `generate_tags` and
`generate_summary`, which are pure functions of the input text. -/

/-- `self.category_keywords`, in Python dict insertion order. -/
def category_keywords : List (Str × List Str) :=
  [ (str "Finance", [str "invoice", str "bill", str "payment", str "financial", str "budget", str "money", str "cost", str "expense", str "revenue"]),
    (str "Work", [str "project", str "meeting", str "deadline", str "report", str "work", str "business", str "professional", str "team", str "task"]),
    (str "Personal", [str "family", str "personal", str "private", str "home", str "love", str "relationship", str "friend"]),
    (str "Technology", [str "software", str "code", str "programming", str "development", str "technical", str "system", str "computer", str "digital"]),
    (str "Business", [str "company", str "corporate", str "enterprise", str "strategy", str "management", str "organization"]),
    (str "Education", [str "learning", str "study", str "course", str "education", str "training", str "academic", str "school", str "university"]),
    (str "Health", [str "medical", str "health", str "doctor", str "patient", str "treatment", str "medicine", str "hospital", str "wellness"]),
    (str "Legal", [str "legal", str "law", str "contract", str "agreement", str "legal", str "attorney", str "court", str "document"]),
    (str "Marketing", [str "marketing", str "advertising", str "campaign", str "promotion", str "brand", str "customer", str "market"]),
    (str "Research", [str "research", str "study", str "analysis", str "data", str "investigation", str "survey", str "findings"]),
    (str "Project Management", [str "project", str "management", str "planning", str "schedule", str "milestone", str "deliverable", str "timeline"]),
    (str "HR", [str "human resources", str "hr", str "employee", str "staff", str "recruitment", str "hiring", str "personnel"]),
    (str "Sales", [str "sales", str "revenue", str "customer", str "deal", str "purchase", str "transaction", str "client"]),
    (str "Creative", [str "design", str "creative", str "art", str "content", str "media", str "visual", str "creative"]),
    (str "Travel", [str "travel", str "trip", str "vacation", str "destination", str "hotel", str "flight", str "tourism"]),
    (str "Real Estate", [str "property", str "real estate", str "house", str "apartment", str "rental", str "mortgage", str "property"]),
    (str "Medical", [str "medical", str "health", str "doctor", str "patient", str "treatment", str "medicine", str "hospital", str "diagnosis"]) ]

/-- The `if cond: if tag not in tags: tags.append(tag)` pattern used for every
tag addition in `generate_tags`. -/
def addTagIf (cond : Bool) (tag : Str) (tags : List Str) : List Str :=
  if cond then (if tag ∈ tags then tags else tags.concat tag) else tags

/-- `AITaggingSystem.generate_tags`.  The inner `for keyword ... break` loop
adds the category once iff any of its keywords occurs in the lowered text. -/
def generate_tags (text : Str) : List Str :=
  if trimList text = [] then []
  else
    let text_lower := pyLower text
    let tags := category_keywords.foldl
      (fun tags ck => addTagIf (ck.2.any (fun kw => containsL kw text_lower)) ck.1 tags) []
    let tags := addTagIf
      ([str "invoice", str "bill", str "payment", str "financial"].any (fun w => containsL w text_lower))
      (str "Finance") tags
    let tags := addTagIf
      ([str "report", str "meeting", str "project", str "deadline"].any (fun w => containsL w text_lower))
      (str "Work") tags
    let tags := addTagIf
      ([str "family", str "personal", str "private"].any (fun w => containsL w text_lower))
      (str "Personal") tags
    tags.take 5

/-- The sentence list of `generate_summary`: `re.split(r'[.!?]+', text)`
followed by `[s.strip() for s in sentences if s.strip() and len(s.strip()) > 10]`.
Splitting on each single punctuation character instead of on runs only
introduces extra empty pieces, which the filter drops, so the result is the
same list the Python code computes. -/
def usableSentences (text : Str) : List Str :=
  ((splitP (fun c => c == '.' || c == '!' || c == '?') text).map trimList).filter
    (fun s => !s.isEmpty && decide (10 < s.length))

def important_terms : List Str :=
  [str "project", str "report", str "summary", str "overview", str "introduction"]

def achievement_keywords : List Str :=
  [str "achieved", str "completed", str "implemented", str "successfully", str "result",
   str "outcome", str "delivered", str "finished", str "accomplished", str "developed",
   str "created", str "built"]

def feature_keywords : List Str :=
  [str "feature", str "system", str "technology", str "capability", str "functionality",
   str "tool", str "platform", str "solution", str "service"]

def info_keywords : List Str :=
  [str "key", str "important", str "main", str "primary", str "objective", str "goal",
   str "purpose", str "aim", str "target", str "focus"]

def status_keywords : List Str :=
  [str "currently", str "status", str "progress", str "schedule", str "budget",
   str "ready", str "deployment", str "production"]

def content_keywords : List Str :=
  [str "project", str "system", str "development", str "team", str "work", str "implementation"]

def title_words : List Str :=
  [str "report", str "document", str "project", str "overview", str "summary", str "analysis"]

/-- The `len(sentences) <= 2` branch of `generate_summary` (here `text` is the
already-stripped input). -/
def shortDocSummary (text : Str) (sentences : List Str) : Str :=
  if 150 < text.length then
    match sentences.find? (fun s => important_terms.any (fun t => containsL t (pyLower s))) with
    | some s => s ++ str "."
    | none =>
      match sentences with
      | s0 :: _ => s0 ++ str "."
      | [] => text.take 150 ++ str "..."
  else text

/-- `if sentence not in summary_sentences: summary_sentences.append(sentence)`. -/
def addIfNew (ss : List Str) (s : Str) : List Str := if s ∈ ss then ss else ss.concat s

/-- Step 6 of `generate_summary`: when fewer than two sentences were collected,
score the remaining sentences and append the best one (Python `max` keeps the
first maximal element) if it is shorter than 150 characters. -/
def step6 (sentences ss : List Str) : List Str :=
  if ss.length < 2 then
    match sentences.filter (fun s => s ∉ ss) with
    | [] => ss
    | r :: rs =>
      let score := fun (s : Str) =>
        (if 50 ≤ s.length ∧ s.length ≤ 120 then 2 else 0)
          + content_keywords.countP (fun kw => containsL kw (pyLower s))
      let scored := (r :: rs).map (fun s => (s, score s))
      let best := (scored.foldl (fun b y => if b.2 < y.2 then y else b) (r, score r)).1
      if best.length < 150 then ss.concat best else ss
  else ss

/-- Steps 1-6 of `generate_summary`: the ranked-bucket selection of summary
sentences. -/
def buildSummarySentences (sentences : List Str) : List Str :=
  let ss :=
    match sentences with
    | [] => []
    | first :: _ =>
      if first.length < 100 ∧ title_words.any (fun w => containsL w (pyLower first)) then [first]
      else []
  let ss := ((sentences.filter (fun s => achievement_keywords.any (fun kw => containsL kw (pyLower s)))).take 2).foldl addIfNew ss
  let ss := ((sentences.filter (fun s => feature_keywords.any (fun kw => containsL kw (pyLower s)))).take 1).foldl addIfNew ss
  let ss := ((sentences.filter (fun s => info_keywords.any (fun kw => containsL kw (pyLower s)))).take 1).foldl addIfNew ss
  let ss := ((sentences.filter (fun s => status_keywords.any (fun kw => containsL kw (pyLower s)))).take 1).foldl addIfNew ss
  step6 sentences ss

/-- The greedy re-accumulation loop of step 7: keep appending complete
sentences while the running length stays under 297, stopping at the first
sentence that does not fit. -/
def greedyTrunc : List Str → Str → Str
  | [], acc => acc
  | s :: rest, acc =>
    if (acc ++ s).length < 297 then greedyTrunc rest (acc ++ s ++ str ". ") else acc

/-- Step 7 of `generate_summary`: join, ensure a trailing period, and enforce
the 300-character limit; the `summary_sentences == []` fallback joins the
first three sentences instead. -/
def finalizeSummary (sentences ss : List Str) : Str :=
  match ss with
  | [] =>
    if 3 ≤ sentences.length then
      let summary := intercal (str ". ") (sentences.take 3) ++ str "."
      if 300 < summary.length then summary.take 300 ++ str "..." else summary
    else intercal (str ". ") sentences ++ str "."
  | _ :: _ =>
    let summary := intercal (str ". ") ss
    let summary := if endsWithL summary (str ".") then summary else summary ++ str "."
    if 300 < summary.length then
      let parts := pySplit (str ". ") summary
      if 1 < parts.length then
        let summary2 := trimList (greedyTrunc parts [])
        if endsWithL summary2 (str ".") then summary2 else summary2 ++ str "..."
      else summary.take 297 ++ str "..."
    else summary

/-- `AITaggingSystem.generate_summary`.  The `try`/`except` wrapper never
fires for the pure computation modelled here. -/
def generate_summary (text : Str) : Str :=
  if trimList text = [] then []
  else
    let text := trimList text
    if text.length < 100 then text
    else
      let sentences := usableSentences text
      if sentences.length ≤ 2 then shortDocSummary text sentences
      else finalizeSummary sentences (buildSummarySentences sentences)

end Tagging

/-! Embedding of the provider clients and the fallback orchestrator
(`app/ai/openai_client.py`, `app/ai/simple_ai_client.py`,
`app/ai/enhanced_processor.py`).  The outcome of each network call is the
only non-deterministic input; it is a parameter of the configuration. -/

/-- Outcome of a remote HTTP call: either a successful payload string or an
error (non-200 status, timeout, network failure — the clients collapse all of
these into an error message). -/
inductive ApiOutcome
  | ok (content : Str)
  | err (message : Str)
deriving DecidableEq

/-- Environment of one processing request: whether each remote client has an
API key configured (its `is_available()`), and what its network call would
return. -/
structure Config where
  openai_key : Bool
  openai_net : ApiOutcome
  simple_key : Bool
  simple_net : ApiOutcome
deriving DecidableEq

/-- The result dict of a summary operation. -/
structure SummaryResult where
  status : Str
  message : Option Str := none
  summary : Str
  model : Option Str := none
deriving DecidableEq

/-- The result dict of a tags operation. -/
structure TagsResult where
  status : Str
  message : Option Str := none
  tags : List Str
  model : Option Str := none
deriving DecidableEq

/-- The result dict of a query operation.  The floating-point `confidence`
field of the remote question-answering path is not modelled; no claim
mentions it. -/
structure QueryResult where
  status : Str
  message : Option Str := none
  answer : Str
  model : Option Str := none
deriving DecidableEq

namespace OpenAI

/-- `OpenAIClient.is_available`. -/
def is_available (cfg : Config) : Bool := cfg.openai_key

/-- `OpenAIClient.generate_summary`: unavailable → error dict; otherwise the
result is determined by the outcome of `_make_api_call`. -/
def generate_summary (cfg : Config) (_file_content : Str) : SummaryResult :=
  if cfg.openai_key then
    match cfg.openai_net with
    | .ok c => ⟨str "success", none, c, some (str "gpt-3.5-turbo")⟩
    | .err m => ⟨str "error", some m, str "Unable to generate summary due to AI service error.", none⟩
  else
    ⟨str "error", some (str "OpenAI API not configured"), str "AI service not available for summarization.", none⟩

/-- `OpenAIClient.generate_tags`, including the comma-split parsing of the
model response. -/
def generate_tags (cfg : Config) (_file_content : Str) : TagsResult :=
  if cfg.openai_key then
    match cfg.openai_net with
    | .ok c =>
      let tags := ((pySplit (str ",") (trimList c)).map trimList).filter (fun t => !t.isEmpty)
      ⟨str "success", none, tags, some (str "gpt-3.5-turbo")⟩
    | .err m => ⟨str "error", some m, [], none⟩
  else
    ⟨str "error", some (str "OpenAI API not configured"), [], none⟩

/-- `OpenAIClient.query_file_content`. -/
def query_file_content (cfg : Config) (_file_content _user_prompt : Str) : QueryResult :=
  if cfg.openai_key then
    match cfg.openai_net with
    | .ok c => ⟨str "success", none, c, some (str "gpt-3.5-turbo")⟩
    | .err m => ⟨str "error", some m, str "Sorry, I encountered an error while processing your question.", none⟩
  else
    ⟨str "error", some (str "OpenAI API not configured"), str "AI service not available. Please configure OpenAI API key.", none⟩

end OpenAI

namespace SimpleAI

/-- `SimpleAIClient.is_available`. -/
def is_available (cfg : Config) : Bool := cfg.simple_key

/-- `SimpleAIClient._rule_based_summary`. -/
def rule_based_summary (file_content : Str) : SummaryResult :=
  let sentences := pySplit (str ". ") file_content
  let summary :=
    if 3 ≤ sentences.length then intercal (str ". ") (sentences.take 3) ++ str "."
    else if 200 < file_content.length then file_content.take 200 ++ str "..."
    else file_content
  ⟨str "success", none, summary, some (str "simple-rule-based")⟩

/-- `SimpleAIClient.generate_summary`: try the inference API when a key is
configured and fall back to the rule-based summary on any API failure. -/
def generate_summary (cfg : Config) (file_content : Str) : SummaryResult :=
  if cfg.simple_key then
    match cfg.simple_net with
    | .ok s => ⟨str "success", none, s, some (str "api-bart-summarizer")⟩
    | .err _ => rule_based_summary file_content
  else rule_based_summary file_content

/-- `SimpleAIClient._categorize_content`. -/
def categorize_content (content : Str) : List Str :=
  let content_lower := pyLower content
  let table : List (Str × List Str) :=
    [ (str "Technology", [str "software", str "system", str "development", str "technical", str "code", str "programming", str "api", str "database"]),
      (str "Business", [str "project", str "company", str "business", str "management", str "strategy", str "organization", str "team"]),
      (str "Finance", [str "budget", str "cost", str "financial", str "money", str "expense", str "revenue", str "payment", str "invoice"]),
      (str "Education", [str "learning", str "study", str "course", str "education", str "training", str "academic", str "school"]),
      (str "Health", [str "medical", str "health", str "doctor", str "patient", str "treatment", str "medicine", str "hospital"]),
      (str "Legal", [str "legal", str "law", str "contract", str "agreement", str "legal", str "attorney", str "court"]),
      (str "Marketing", [str "marketing", str "advertising", str "campaign", str "promotion", str "brand", str "customer"]),
      (str "Research", [str "research", str "study", str "analysis", str "data", str "investigation", str "survey"]),
      (str "Project Management", [str "project", str "management", str "planning", str "schedule", str "milestone", str "deliverable"]),
      (str "Documentation", [str "document", str "report", str "file", str "record", str "documentation", str "manual"]) ]
  (table.foldl (fun cats ck =>
    if ck.2.any (fun kw => containsL kw content_lower) then cats.concat ck.1 else cats) []).take 5

/-- `SimpleAIClient.generate_tags`.  The word-frequency table the source
computes before calling `_categorize_content` is dead code (its value is
never used), so it is omitted here. -/
def generate_tags (_cfg : Config) (file_content : Str) : TagsResult :=
  ⟨str "success", none, categorize_content file_content, some (str "simple-rule-based")⟩

/-- `SimpleAIClient._rule_based_query`. -/
def rule_based_query (file_content user_prompt : Str) : QueryResult :=
  let prompt_lower := pyLower user_prompt
  if containsL (str "summary") prompt_lower || containsL (str "summarize") prompt_lower then
    let sentences := pySplit (str ". ") file_content
    ⟨str "success", none,
      str "Here\x27s a summary: " ++ (intercal (str ". ") (sentences.take 3) ++ str "."),
      some (str "simple-rule-based")⟩
  else if containsL (str "what") prompt_lower then
    let sentences := pySplit (str ". ") file_content
    ⟨str "success", none,
      str "Based on the document: " ++ intercal (str " ") (sentences.take 2),
      some (str "simple-rule-based")⟩
  else if containsL (str "how") prompt_lower then
    ⟨str "success", none,
      str "The document describes various processes and implementations. For specific details, please ask a more specific question about what aspect you\x27re interested in.",
      some (str "simple-rule-based")⟩
  else
    ⟨str "success", none,
      str "I found information in the document that might be relevant to your question. Please ask a more specific question about the content.",
      some (str "simple-rule-based")⟩

/-- `SimpleAIClient.query_file_content`. -/
def query_file_content (cfg : Config) (file_content user_prompt : Str) : QueryResult :=
  if cfg.simple_key then
    match cfg.simple_net with
    | .ok a => ⟨str "success", none, a, some (str "api-roberta-qa")⟩
    | .err _ => rule_based_query file_content user_prompt
  else rule_based_query file_content user_prompt

end SimpleAI

namespace Enhanced

/-- The three entries of `self.provider_priority`, as an enumeration of the
identifier strings `"openai"`, `"simple_ai"`, `"fallback"`. -/
inductive Provider
  | openai
  | simple_ai
  | fallback
deriving DecidableEq

/-- `isAvailable()` of each provider in the chain: the two remote clients
check their API key; the terminal rule-based provider is always available. -/
def provider_available (cfg : Config) : Provider → Bool
  | .openai => cfg.openai_key
  | .simple_ai => cfg.simple_key
  | .fallback => true

def provider_priority : List Provider := [.openai, .simple_ai, .fallback]

/-- The `for provider in self.provider_priority` loop shared by the three
operations: each step either returns a result (stopping the loop) or passes;
the invoked providers are recorded for the analysis of the fallback
protocol. -/
def runChain {α : Type} (tryP : Provider → Option α × List Provider) :
    List Provider → Option α × List Provider
  | [] => (none, [])
  | p :: rest =>
    match tryP p with
    | (some r, inv) => (some r, inv)
    | (none, inv) =>
      let next := runChain tryP rest
      (next.1, inv ++ next.2)

/-- `EnhancedAIProcessor._fallback_summary` (delegates to the tagging
system's summarizer; its `try` never fires for this pure computation). -/
def fallback_summary (file_content : Str) : SummaryResult :=
  ⟨str "success", none, Tagging.generate_summary file_content, some (str "fallback-rule-based")⟩

/-- `EnhancedAIProcessor._fallback_tags`. -/
def fallback_tags (file_content : Str) : TagsResult :=
  ⟨str "success", none, Tagging.generate_tags file_content, some (str "fallback-rule-based")⟩

/-- `EnhancedAIProcessor._fallback_query`. -/
def fallback_query (file_content user_prompt : Str) : QueryResult :=
  let prompt_lower := pyLower user_prompt
  if containsL (str "summary") prompt_lower || containsL (str "summarize") prompt_lower then
    let sentences := pySplit (str ". ") file_content
    ⟨str "success", none,
      str "Here\x27s a summary: " ++ (intercal (str ". ") (sentences.take 3) ++ str "."),
      some (str "fallback-rule-based")⟩
  else if containsL (str "what") prompt_lower then
    let sentences := pySplit (str ". ") file_content
    ⟨str "success", none,
      str "Based on the document: " ++ intercal (str " ") (sentences.take 2),
      some (str "fallback-rule-based")⟩
  else
    ⟨str "success", none,
      str "I found information in the document that might be relevant to your question. Please ask a more specific question about the content.",
      some (str "fallback-rule-based")⟩

/-- One step of the summary loop body: openai is invoked only if available
and its result is returned only on success; simple_ai is invoked with no
availability check; the fallback result is returned unconditionally. -/
def try_summary (cfg : Config) (content : Str) : Provider → Option SummaryResult × List Provider
  | .openai =>
    if cfg.openai_key then
      let r := OpenAI.generate_summary cfg content
      ((if r.status = str "success" then some r else none), [.openai])
    else (none, [])
  | .simple_ai =>
    let r := SimpleAI.generate_summary cfg content
    ((if r.status = str "success" then some r else none), [.simple_ai])
  | .fallback => (some (fallback_summary content), [.fallback])

/-- `EnhancedAIProcessor.generate_summary`, returning the result together
with the list of providers invoked. -/
def generate_summary (cfg : Config) (content : Str) : SummaryResult × List Provider :=
  if trimList content = [] then
    (⟨str "error", some (str "No content to summarize"), str "The file contains no readable text content.", none⟩, [])
  else
    match runChain (try_summary cfg content) provider_priority with
    | (some r, inv) => (r, inv)
    | (none, inv) =>
      (⟨str "error", some (str "All AI providers failed"), str "Unable to generate summary due to AI service errors.", none⟩, inv)

/-- One step of the tags loop body. -/
def try_tags (cfg : Config) (content : Str) : Provider → Option TagsResult × List Provider
  | .openai =>
    if cfg.openai_key then
      let r := OpenAI.generate_tags cfg content
      ((if r.status = str "success" then some r else none), [.openai])
    else (none, [])
  | .simple_ai =>
    let r := SimpleAI.generate_tags cfg content
    ((if r.status = str "success" then some r else none), [.simple_ai])
  | .fallback => (some (fallback_tags content), [.fallback])

/-- `EnhancedAIProcessor.generate_tags`. -/
def generate_tags (cfg : Config) (content : Str) : TagsResult × List Provider :=
  if trimList content = [] then
    (⟨str "error", some (str "No content to tag"), [], none⟩, [])
  else
    match runChain (try_tags cfg content) provider_priority with
    | (some r, inv) => (r, inv)
    | (none, inv) => (⟨str "error", some (str "All AI providers failed"), [], none⟩, inv)

/-- One step of the query loop body. -/
def try_query (cfg : Config) (content q : Str) : Provider → Option QueryResult × List Provider
  | .openai =>
    if cfg.openai_key then
      let r := OpenAI.query_file_content cfg content q
      ((if r.status = str "success" then some r else none), [.openai])
    else (none, [])
  | .simple_ai =>
    let r := SimpleAI.query_file_content cfg content q
    ((if r.status = str "success" then some r else none), [.simple_ai])
  | .fallback => (some (fallback_query content q), [.fallback])

/-- `EnhancedAIProcessor.query_file_content`. -/
def query_file_content (cfg : Config) (content q : Str) : QueryResult × List Provider :=
  if trimList content = [] then
    (⟨str "error", some (str "No content to query"), str "The file contains no readable text content.", none⟩, [])
  else
    match runChain (try_query cfg content q) provider_priority with
    | (some r, inv) => (r, inv)
    | (none, inv) =>
      (⟨str "error", some (str "All AI providers failed"), str "Sorry, I\x27m unable to process your question at this time.", none⟩, inv)

/-- The `analysis` dict of `_basic_analysis`. -/
structure Analysis where
  word_count : Nat
  character_count : Nat
  sentence_count : Nat
  paragraph_count : Nat
  estimated_reading_time : Nat
  content_type : Str
  key_topics : List Str
deriving DecidableEq

/-- The stop-word set of `_extract_key_topics`. -/
def stop_words : List Str :=
  [str "the", str "a", str "an", str "and", str "or", str "but", str "in", str "on",
   str "at", str "to", str "for", str "of", str "with", str "by", str "is", str "are",
   str "was", str "were", str "be", str "been", str "have", str "has", str "had",
   str "do", str "does", str "did", str "will", str "would", str "could", str "should",
   str "may", str "might", str "can", str "this", str "that", str "these", str "those",
   str "i", str "you", str "he", str "she", str "it", str "we", str "they", str "me",
   str "him", str "her", str "us", str "them"]

/-- Python `''.join(c for c in word if c.isalnum())`. -/
def cleanWord (w : Str) : Str := w.filter Char.isAlphanum

/-- One dict update `word_freq[word] = word_freq.get(word, 0) + 1`: increment
in place if the key exists, else append it (Python dicts preserve insertion
order). -/
def bump : List (Str × Nat) → Str → List (Str × Nat)
  | [], w => [(w, 1)]
  | (k, c) :: rest, w => if k = w then (k, c + 1) :: rest else (k, c) :: bump rest w

/-- The `word_freq` loop of `_extract_key_topics`. -/
def word_freq (words : List Str) : List (Str × Nat) :=
  words.foldl (fun acc w =>
    let cw := cleanWord w
    if 3 < cw.length ∧ cw ∉ stop_words then bump acc cw else acc) []

/-- Python `sorted(items, key=lambda x: x[1], reverse=True)`: a stable sort
descending on the second component.  Insertion sort with the reflexive
relation `b.2 ≤ a.2` places each element after all earlier elements with a
greater-or-equal count, which is exactly the stable descending order Python
produces. -/
def sortDescBySnd (l : List (Str × Nat)) : List (Str × Nat) :=
  l.insertionSort (fun a b => b.2 ≤ a.2)

/-- `EnhancedAIProcessor._extract_key_topics`. -/
def extract_key_topics (content : Str) : List Str :=
  let words := splitWS (pyLower content)
  ((sortDescBySnd (word_freq words)).take 5).map Prod.fst

/-- `EnhancedAIProcessor._detect_content_type`. -/
def detect_content_type (content : Str) : Str :=
  let content_lower := pyLower content
  if [str "invoice", str "bill", str "payment", str "financial"].any (fun w => containsL w content_lower) then
    str "Financial Document"
  else if [str "report", str "analysis", str "study"].any (fun w => containsL w content_lower) then
    str "Report"
  else if [str "meeting", str "agenda", str "minutes"].any (fun w => containsL w content_lower) then
    str "Meeting Document"
  else if [str "contract", str "agreement", str "legal"].any (fun w => containsL w content_lower) then
    str "Legal Document"
  else if [str "code", str "programming", str "software"].any (fun w => containsL w content_lower) then
    str "Technical Document"
  else if [str "email", str "message", str "correspondence"].any (fun w => containsL w content_lower) then
    str "Communication"
  else str "General Document"

/-- `EnhancedAIProcessor._basic_analysis`. -/
def basic_analysis (content : Str) : Analysis :=
  { word_count := (splitWS content).length
    character_count := content.length
    sentence_count := ((pySplit (str ".") content).filter (fun s => !(trimList s).isEmpty)).length
    paragraph_count := ((pySplit (str "\n\n") content).filter (fun p => !(trimList p).isEmpty)).length
    estimated_reading_time := (splitWS content).length / 200
    content_type := detect_content_type content
    key_topics := extract_key_topics content }

/-- The result dict of `process_file_complete` (`analysis := none` models the
empty dict of the precondition-failure branch). -/
structure CompleteResult where
  status : Str
  message : Option Str := none
  summary : Str
  tags : List Str
  analysis : Option Analysis
  summary_model : Option Str := none
  tags_model : Option Str := none
deriving DecidableEq

/-- `EnhancedAIProcessor.process_file_complete`. -/
def process_file_complete (cfg : Config) (content : Str) : CompleteResult × List Provider :=
  if trimList content = [] then
    (⟨str "error", some (str "No content to process"), [], [], none, none, none⟩, [])
  else
    let sr := generate_summary cfg content
    let summary := if sr.1.status = str "success" then sr.1.summary else []
    let tr := generate_tags cfg content
    let tags := if tr.1.status = str "success" then tr.1.tags else []
    let analysis := basic_analysis content
    (⟨str "success", none, summary, tags, some analysis,
      some (sr.1.model.getD (str "unknown")), some (tr.1.model.getD (str "unknown"))⟩,
      sr.2 ++ tr.2)

end Enhanced

namespace Query

/-! Embedding of `app/ai/query.py` (`FileQuerySystem`).  The file-path
handling of `query_file` is out of scope; the claims concern
`_create_enhanced_prompt` and `_generate_answer`. -/

/-- The dispatch marker `"User Question: "`. -/
def uqMarker : Str := str "User Question: "

def prompt_header : Str :=
  str "\nBased on the following file content, please answer the user\x27s question.\n\nFile Content:\n"

def prompt_footer : Str :=
  str "\n\nPlease provide a clear, accurate answer based only on the information in the file content above.\n"

/-- `FileQuerySystem._create_enhanced_prompt`. -/
def create_enhanced_prompt (file_content user_prompt : Str) : Str :=
  let file_content :=
    if 2000 < file_content.length then file_content.take 2000 ++ str "..." else file_content
  prompt_header ++ file_content ++ str "\n\nUser Question: " ++ user_prompt ++ prompt_footer

/-- `FileQuerySystem._generate_summary_response`. -/
def generate_summary_response (content : Str) : Str :=
  let sentences := pySplit (str ". ") content
  if 3 ≤ sentences.length then
    str "Here\x27s a summary of the document: " ++ (intercal (str ". ") (sentences.take 3) ++ str ".")
  else
    str "Here\x27s the document content: " ++ content

/-- The shared shape of the seven keyword-bucket finders: collect the
trimmed sentences containing one of the keywords, and produce either the
joined prefix with a framing text or the fixed no-match sentence. -/
def findBucket (kws : List Str) (frame : Str) (cap : Nat) (noneMsg : Str) (content : Str) : Str :=
  let sentences := pySplit (str ". ") content
  let found := ((sentences.filter (fun s => kws.any (fun k => containsL k (pyLower s)))).map trimList)
  if found.isEmpty then noneMsg
  else frame ++ intercal (str " ") (found.take cap)

/-- `FileQuerySystem._find_achievements`. -/
def find_achievements (content : Str) : Str :=
  findBucket
    [str "achieved", str "completed", str "implemented", str "successfully", str "delivered",
     str "finished", str "accomplished", str "developed", str "created", str "built"]
    (str "Key achievements mentioned in the document: ") 3
    (str "No specific achievements are mentioned in this document.") content

/-- `FileQuerySystem._find_features`. -/
def find_features (content : Str) : Str :=
  findBucket
    [str "feature", str "system", str "technology", str "capability", str "functionality",
     str "tool", str "platform", str "solution", str "service"]
    (str "Key features and capabilities mentioned: ") 3
    (str "No specific features or capabilities are mentioned in this document.") content

/-- `FileQuerySystem._find_status`. -/
def find_status (content : Str) : Str :=
  findBucket
    [str "currently", str "status", str "progress", str "schedule", str "budget",
     str "ready", str "deployment", str "production"]
    (str "Current status information: ") 2
    (str "No specific status information is mentioned in this document.") content

/-- `FileQuerySystem._find_next_steps`. -/
def find_next_steps (content : Str) : Str :=
  findBucket
    [str "next", str "future", str "plan", str "upcoming", str "will", str "going to", str "intend to"]
    (str "Next steps and future plans: ") 2
    (str "No specific next steps or future plans are mentioned in this document.") content

/-- `FileQuerySystem._find_team_info`. -/
def find_team_info (content : Str) : Str :=
  findBucket
    [str "team", str "member", str "developer", str "staff", str "personnel", str "collaborator"]
    (str "Team information: ") 2
    (str "No specific team information is mentioned in this document.") content

/-- `FileQuerySystem._find_budget_info`. -/
def find_budget_info (content : Str) : Str :=
  findBucket
    [str "budget", str "cost", str "financial", str "money", str "expense", str "revenue", str "funding"]
    (str "Budget and financial information: ") 2
    (str "No specific budget or financial information is mentioned in this document.") content

/-- `FileQuerySystem._generate_generic_response`. -/
def generate_generic_response (content question : Str) : Str :=
  if containsL (str "what") question then
    str "Based on the document content: " ++ intercal (str " ") ((pySplit (str ". ") content).take 2)
  else if containsL (str "how") question then
    str "The document describes various processes and implementations. For specific details, please ask a more specific question about what aspect you\x27re interested in."
  else if containsL (str "when") question then
    str "The document doesn\x27t contain specific timeline information. Please ask about specific aspects of the project or content."
  else if containsL (str "where") question then
    str "This appears to be a project document. For location-specific information, please ask about specific aspects of the project."
  else
    str "I found information in the document that might be relevant to your question. Here are the key points: " ++ content.take 300 ++ str "..."

/-- `FileQuerySystem._generate_answer`: the dispatch key is
`prompt.split("User Question: ")[-1].strip().lower()`. -/
def generate_answer (prompt file_content : Str) : Str :=
  let user_question := pyLower (trimList (lastSplit uqMarker prompt))
  if containsL (str "summary") user_question || containsL (str "summarize") user_question then
    generate_summary_response file_content
  else if containsL (str "achievement") user_question || containsL (str "accomplish") user_question
      || containsL (str "complete") user_question then
    find_achievements file_content
  else if containsL (str "feature") user_question || containsL (str "capability") user_question
      || containsL (str "function") user_question then
    find_features file_content
  else if containsL (str "status") user_question || containsL (str "progress") user_question
      || containsL (str "current") user_question then
    find_status file_content
  else if containsL (str "next") user_question || containsL (str "future") user_question
      || containsL (str "plan") user_question then
    find_next_steps file_content
  else if containsL (str "team") user_question || containsL (str "member") user_question then
    find_team_info file_content
  else if containsL (str "budget") user_question || containsL (str "cost") user_question
      || containsL (str "financial") user_question then
    find_budget_info file_content
  else
    generate_generic_response file_content user_question

/-- The composition a caller observes: build the enhanced prompt from the
document and question, then dispatch on it. -/
def query_answer (file_content user_prompt : Str) : Str :=
  generate_answer (create_enhanced_prompt file_content user_prompt) file_content

end Query

/-! Supporting lemmas. -/

theorem dropWhile_idem (p : Char → Bool) (l : Str) :
    (l.dropWhile p).dropWhile p = l.dropWhile p := by
  induction l with
  | nil => rfl
  | cons c rest ih =>
    by_cases h : p c
    · simp [List.dropWhile_cons, h, ih]
    · simp [List.dropWhile_cons, h]

theorem dropWhile_fixed_of_trimRight (l : Str) (h : l.dropWhile isWS = l) :
    (trimRight l).dropWhile isWS = trimRight l := by
  cases hl : l with
  | nil => simp [trimRight]
  | cons c rest =>
    have hc : isWS c = false := by
      by_contra hw
      simp only [Bool.not_eq_false] at hw
      rw [hl, List.dropWhile_cons, if_pos hw] at h
      have := (List.dropWhile_sublist (l := rest) isWS).length_le
      rw [h] at this
      simp at this
    have : trimRight (c :: rest) = ((rest.reverse ++ [c]).dropWhile isWS).reverse := by
      simp [trimRight]
    rw [this, List.dropWhile_append]
    by_cases he : (rest.reverse.dropWhile isWS).isEmpty
    · simp [he, List.dropWhile_cons, hc]
    · simp only [he, if_neg, Bool.false_eq_true, not_false_iff, if_false]
      rw [List.reverse_append]
      simp [List.dropWhile_cons, hc]

theorem trimList_idem (l : Str) : trimList (trimList l) = trimList l := by
  unfold trimList
  rw [dropWhile_fixed_of_trimRight (l.dropWhile isWS) (dropWhile_idem isWS l)]
  unfold trimRight
  rw [List.reverse_reverse, dropWhile_idem]

theorem addTagIf_nodup (b : Bool) (c : Str) (tags : List Str) (h : tags.Nodup) :
    (Tagging.addTagIf b c tags).Nodup := by
  unfold Tagging.addTagIf
  split
  · split
    · exact h
    · rename_i hc
      simp only [List.concat_eq_append, List.nodup_append, List.nodup_singleton]
      exact ⟨h, trivial, by simp [List.disjoint_singleton, hc]⟩
  · exact h

theorem foldl_addTagIf_nodup {β : Type} (l : List β) (cnd : β → Bool) (key : β → Str) :
    ∀ tags : List Str, tags.Nodup →
      (l.foldl (fun tags b => Tagging.addTagIf (cnd b) (key b) tags) tags).Nodup := by
  induction l with
  | nil => intro tags h; exact h
  | cons b rest ih => intro tags h; exact ih _ (addTagIf_nodup _ _ _ h)

/-- Claim C4: for every input text, the tag list returned by `generate_tags`
has length at most 5 and contains no duplicate category label. -/
theorem generate_tags_at_most_five_nodup (text : Str) :
    (Tagging.generate_tags text).length ≤ 5 ∧ (Tagging.generate_tags text).Nodup := by
  unfold Tagging.generate_tags
  split
  · simp
  · refine ⟨List.length_take_le 5 _, ?_⟩
    refine List.Nodup.sublist (List.take_sublist 5 _) ?_
    exact addTagIf_nodup _ _ _ (addTagIf_nodup _ _ _ (addTagIf_nodup _ _ _
      (foldl_addTagIf_nodup Tagging.category_keywords
        (fun ck => ck.2.any fun kw => containsL kw (pyLower text)) Prod.fst [] List.nodup_nil)))

/-- Claim C7: on the input `"SmartCloud invoice report love. Short."` the tag
list includes Finance (from "invoice"), Work (from "report") and Personal
(from "love"). -/
theorem smartcloud_scenario_tags :
    str "Finance" ∈ Tagging.generate_tags (str "SmartCloud invoice report love. Short.") ∧
    str "Work" ∈ Tagging.generate_tags (str "SmartCloud invoice report love. Short.") ∧
    str "Personal" ∈ Tagging.generate_tags (str "SmartCloud invoice report love. Short.") := by
  decide

/-- Claim C3 counterexample: `" hi "` is non-empty and shorter than 100
characters, yet `generate_summary` does not return it unchanged (it returns
the trimmed text `"hi"`). -/
theorem summary_short_text_not_identity :
    str " hi " ≠ [] ∧ (str " hi ").length < 100 ∧
    Tagging.generate_summary (str " hi ") ≠ str " hi " := by decide

/-- Claim C3 (amended): for every input whose trimmed form is non-empty and
shorter than 100 characters, `generate_summary` returns the trimmed input. -/
theorem summary_short_returns_trimmed (text : Str)
    (h1 : trimList text ≠ []) (h2 : (trimList text).length < 100) :
    Tagging.generate_summary text = trimList text := by
  simp [Tagging.generate_summary, h1, h2]

/-- Witness for `summary_short_returns_trimmed`. -/
theorem summary_short_returns_trimmed_witness :
    Tagging.generate_summary (str " x9 ") = trimList (str " x9 ") :=
  summary_short_returns_trimmed (str " x9 ") (by decide) (by decide)

/-- Claim C9: `generate_summary` strips its input before any other step; in
particular it is invariant under pre-trimming, and on trimmed text that is
non-empty and under 100 characters it returns exactly the trimmed text. -/
theorem summary_trims_before_processing (text : Str)
    (h1 : trimList text ≠ []) (h2 : (trimList text).length < 100) :
    Tagging.generate_summary text = Tagging.generate_summary (trimList text) ∧
    Tagging.generate_summary text = trimList text := by
  have htrim : Tagging.generate_summary text = trimList text := by
    simp [Tagging.generate_summary, h1, h2]
  have h1' : trimList (trimList text) ≠ [] := by rw [trimList_idem]; exact h1
  have h2' : (trimList (trimList text)).length < 100 := by rw [trimList_idem]; exact h2
  have htrim' : Tagging.generate_summary (trimList text) = trimList (trimList text) := by
    simp [Tagging.generate_summary, h1', h2']
  rw [htrim, htrim', trimList_idem]
  exact ⟨rfl, rfl⟩

/-- Witness for `summary_trims_before_processing`. -/
theorem summary_trims_before_processing_witness :
    Tagging.generate_summary (str "  ok  ") = Tagging.generate_summary (trimList (str "  ok  ")) ∧
    Tagging.generate_summary (str "  ok  ") = trimList (str "  ok  ") :=
  summary_trims_before_processing (str "  ok  ") (by decide) (by decide)

/-- The four precondition-failure results returned for blank input, together
with the fact that no provider is invoked. -/
def blankRejection (cfg : Config) (content q : Str) : Prop :=
  Enhanced.generate_summary cfg content =
    (⟨str "error", some (str "No content to summarize"), str "The file contains no readable text content.", none⟩, []) ∧
  Enhanced.generate_tags cfg content =
    (⟨str "error", some (str "No content to tag"), [], none⟩, []) ∧
  Enhanced.query_file_content cfg content q =
    (⟨str "error", some (str "No content to query"), str "The file contains no readable text content.", none⟩, []) ∧
  Enhanced.process_file_complete cfg content =
    (⟨str "error", some (str "No content to process"), [], [], none, none, none⟩, [])

/-- Claim C6 counterexample: for the empty document the summary operation
returns the fixed placeholder sentence as its payload, not an empty string. -/
theorem blank_summary_payload_nonempty :
    trimList (str "") = [] ∧
    (Enhanced.generate_summary ⟨false, ApiOutcome.err [], false, ApiOutcome.err []⟩ (str "")).1.summary ≠ [] := by
  decide

/-- Claim C6 (amended): every orchestrator operation rejects blank input
before the provider loop, returning an error result with a fixed message and
no provider invocation; the tags and analysis payloads are empty while the
summary and answer payloads are a fixed placeholder sentence. -/
theorem blank_input_rejected (cfg : Config) (content q : Str) (h : trimList content = []) :
    blankRejection cfg content q := by
  unfold blankRejection Enhanced.generate_summary Enhanced.generate_tags
    Enhanced.query_file_content Enhanced.process_file_complete
  simp [h]

/-- Witness for `blank_input_rejected`. -/
theorem blank_input_rejected_witness :
    blankRejection ⟨false, ApiOutcome.err [], false, ApiOutcome.err []⟩ (str "  ") (str "what") :=
  blank_input_rejected _ _ _ (by decide)

theorem simple_summary_success (cfg : Config) (content : Str) :
    (SimpleAI.generate_summary cfg content).status = str "success" := by
  by_cases hk : cfg.simple_key <;> cases hnet : cfg.simple_net <;>
    simp [SimpleAI.generate_summary, SimpleAI.rule_based_summary, hk, hnet]

theorem simple_tags_success (cfg : Config) (content : Str) :
    (SimpleAI.generate_tags cfg content).status = str "success" := rfl

theorem rule_based_query_success (content q : Str) :
    (SimpleAI.rule_based_query content q).status = str "success" := by
  unfold SimpleAI.rule_based_query
  dsimp only
  split
  · rfl
  · split
    · rfl
    · split <;> rfl

theorem simple_query_success (cfg : Config) (content q : Str) :
    (SimpleAI.query_file_content cfg content q).status = str "success" := by
  by_cases hk : cfg.simple_key <;> cases hnet : cfg.simple_net <;>
    simp [SimpleAI.query_file_content, hk, hnet, rule_based_query_success]

/-- Evaluation of the summary fallback loop on non-blank input: the openai
provider is consulted only when its key is configured and its result is kept
only on success; otherwise the simple client answers (it never fails), so the
fallback provider is never reached. -/
theorem generate_summary_eval (cfg : Config) (content : Str) (h : trimList content ≠ []) :
    Enhanced.generate_summary cfg content =
      if cfg.openai_key = true ∧ (OpenAI.generate_summary cfg content).status = str "success"
      then (OpenAI.generate_summary cfg content, [Enhanced.Provider.openai])
      else (SimpleAI.generate_summary cfg content,
            if cfg.openai_key then [Enhanced.Provider.openai, Enhanced.Provider.simple_ai]
            else [Enhanced.Provider.simple_ai]) := by
  unfold Enhanced.generate_summary
  rw [if_neg h]
  by_cases hk : cfg.openai_key
  · by_cases hs : (OpenAI.generate_summary cfg content).status = str "success"
    · simp [Enhanced.runChain, Enhanced.try_summary, Enhanced.provider_priority, hk, hs]
    · simp [Enhanced.runChain, Enhanced.try_summary, Enhanced.provider_priority, hk, hs,
        simple_summary_success]
  · simp [Enhanced.runChain, Enhanced.try_summary, Enhanced.provider_priority, hk,
      simple_summary_success]

/-- Evaluation of the tags fallback loop on non-blank input. -/
theorem generate_tags_eval (cfg : Config) (content : Str) (h : trimList content ≠ []) :
    Enhanced.generate_tags cfg content =
      if cfg.openai_key = true ∧ (OpenAI.generate_tags cfg content).status = str "success"
      then (OpenAI.generate_tags cfg content, [Enhanced.Provider.openai])
      else (SimpleAI.generate_tags cfg content,
            if cfg.openai_key then [Enhanced.Provider.openai, Enhanced.Provider.simple_ai]
            else [Enhanced.Provider.simple_ai]) := by
  unfold Enhanced.generate_tags
  rw [if_neg h]
  by_cases hk : cfg.openai_key
  · by_cases hs : (OpenAI.generate_tags cfg content).status = str "success"
    · simp [Enhanced.runChain, Enhanced.try_tags, Enhanced.provider_priority, hk, hs]
    · simp [Enhanced.runChain, Enhanced.try_tags, Enhanced.provider_priority, hk, hs,
        simple_tags_success]
  · simp [Enhanced.runChain, Enhanced.try_tags, Enhanced.provider_priority, hk,
      simple_tags_success]

/-- Evaluation of the query fallback loop on non-blank input. -/
theorem query_file_content_eval (cfg : Config) (content q : Str) (h : trimList content ≠ []) :
    Enhanced.query_file_content cfg content q =
      if cfg.openai_key = true ∧ (OpenAI.query_file_content cfg content q).status = str "success"
      then (OpenAI.query_file_content cfg content q, [Enhanced.Provider.openai])
      else (SimpleAI.query_file_content cfg content q,
            if cfg.openai_key then [Enhanced.Provider.openai, Enhanced.Provider.simple_ai]
            else [Enhanced.Provider.simple_ai]) := by
  unfold Enhanced.query_file_content
  rw [if_neg h]
  by_cases hk : cfg.openai_key
  · by_cases hs : (OpenAI.query_file_content cfg content q).status = str "success"
    · simp [Enhanced.runChain, Enhanced.try_query, Enhanced.provider_priority, hk, hs]
    · simp [Enhanced.runChain, Enhanced.try_query, Enhanced.provider_priority, hk, hs,
        simple_query_success]
  · simp [Enhanced.runChain, Enhanced.try_query, Enhanced.provider_priority, hk,
      simple_query_success]

/-- What the fallback loop actually guarantees for one operation: openai is
invoked iff its key is configured; a successful openai result is returned
unchanged with no later provider invoked; otherwise the result is the simple
client's (invoked regardless of its own availability) and the fallback
provider is never reached. -/
def fallbackContract {α : Type} (openKey : Bool) (openaiRes simpleRes : α) (statusOf : α → Str)
    (run : α × List Enhanced.Provider) : Prop :=
  (openKey = false → Enhanced.Provider.openai ∉ run.2) ∧
  (openKey = true → Enhanced.Provider.openai ∈ run.2) ∧
  (openKey = true → statusOf openaiRes = str "success" →
    run = (openaiRes, [Enhanced.Provider.openai])) ∧
  (¬(openKey = true ∧ statusOf openaiRes = str "success") →
    run.1 = simpleRes ∧ Enhanced.Provider.simple_ai ∈ run.2 ∧
    Enhanced.Provider.fallback ∉ run.2)

theorem fallbackContract_of_eval {α : Type} (openKey : Bool) (openaiRes simpleRes : α)
    (statusOf : α → Str) (run : α × List Enhanced.Provider)
    (heval : run = if openKey = true ∧ statusOf openaiRes = str "success"
      then (openaiRes, [Enhanced.Provider.openai])
      else (simpleRes, if openKey then [Enhanced.Provider.openai, Enhanced.Provider.simple_ai]
            else [Enhanced.Provider.simple_ai])) :
    fallbackContract openKey openaiRes simpleRes statusOf run := by
  subst heval
  unfold fallbackContract
  by_cases hk : openKey = true
  · by_cases hs : statusOf openaiRes = str "success" <;> simp [hk, hs]
  · have hk' : openKey = false := by simpa using hk
    simp [hk']

/-- Claim C1 counterexample: with no API keys configured, the simple_ai
provider reports `is_available() = false` and is nevertheless invoked by the
summary chain — the orchestrator does not skip unavailable providers other
than openai. -/
theorem orchestrator_invokes_unavailable_simple_ai :
    Enhanced.provider_available ⟨false, ApiOutcome.err [], false, ApiOutcome.err []⟩
      Enhanced.Provider.simple_ai = false ∧
    Enhanced.Provider.simple_ai ∈
      (Enhanced.generate_summary ⟨false, ApiOutcome.err [], false, ApiOutcome.err []⟩
        (str "hello world, this is fine.")).2 := by decide

/-- Claim C1 (amended): on non-blank input each of the three operations obeys
`fallbackContract`: availability is checked for openai only, the first
successful result is returned unchanged, no provider after the first
successful one is invoked, and the simple client is invoked regardless of
its own availability whenever openai does not succeed. -/
theorem orchestrator_fallback_contract (cfg : Config) (content q : Str)
    (h : trimList content ≠ []) :
    fallbackContract cfg.openai_key (OpenAI.generate_summary cfg content)
      (SimpleAI.generate_summary cfg content) SummaryResult.status
      (Enhanced.generate_summary cfg content) ∧
    fallbackContract cfg.openai_key (OpenAI.generate_tags cfg content)
      (SimpleAI.generate_tags cfg content) TagsResult.status
      (Enhanced.generate_tags cfg content) ∧
    fallbackContract cfg.openai_key (OpenAI.query_file_content cfg content q)
      (SimpleAI.query_file_content cfg content q) QueryResult.status
      (Enhanced.query_file_content cfg content q) :=
  ⟨fallbackContract_of_eval _ _ _ _ _ (generate_summary_eval cfg content h),
   fallbackContract_of_eval _ _ _ _ _ (generate_tags_eval cfg content h),
   fallbackContract_of_eval _ _ _ _ _ (query_file_content_eval cfg content q h)⟩

def cfgDemo : Config := ⟨true, ApiOutcome.ok (str "A remote summary."), false, ApiOutcome.err []⟩

/-- Witness for `orchestrator_fallback_contract`. -/
theorem orchestrator_fallback_contract_witness :
    fallbackContract cfgDemo.openai_key (OpenAI.generate_summary cfgDemo (str "hello there."))
      (SimpleAI.generate_summary cfgDemo (str "hello there.")) SummaryResult.status
      (Enhanced.generate_summary cfgDemo (str "hello there.")) ∧
    fallbackContract cfgDemo.openai_key (OpenAI.generate_tags cfgDemo (str "hello there."))
      (SimpleAI.generate_tags cfgDemo (str "hello there.")) TagsResult.status
      (Enhanced.generate_tags cfgDemo (str "hello there.")) ∧
    fallbackContract cfgDemo.openai_key
      (OpenAI.query_file_content cfgDemo (str "hello there.") (str "what"))
      (SimpleAI.query_file_content cfgDemo (str "hello there.") (str "what")) QueryResult.status
      (Enhanced.query_file_content cfgDemo (str "hello there.") (str "what")) :=
  orchestrator_fallback_contract cfgDemo (str "hello there.") (str "what") (by decide)

/-- Claim C5: for every configuration and every document whose text contains
a non-whitespace character, all three chains terminate with a Success
outcome — the exhausted-chain "All AI providers failed" result is
unreachable for such inputs. -/
theorem chain_never_exhausted (cfg : Config) (content q : Str) (h : trimList content ≠ []) :
    (Enhanced.generate_summary cfg content).1.status = str "success" ∧
    (Enhanced.generate_tags cfg content).1.status = str "success" ∧
    (Enhanced.query_file_content cfg content q).1.status = str "success" := by
  rw [generate_summary_eval cfg content h, generate_tags_eval cfg content h,
    query_file_content_eval cfg content q h]
  refine ⟨?_, ?_, ?_⟩
  · split
    · rename_i hc; exact hc.2
    · exact simple_summary_success cfg content
  · split
    · rename_i hc; exact hc.2
    · exact simple_tags_success cfg content
  · split
    · rename_i hc; exact hc.2
    · exact simple_query_success cfg content q

def cfgNoKeys : Config := ⟨false, ApiOutcome.err [], false, ApiOutcome.err []⟩

/-- Witness for `chain_never_exhausted`. -/
theorem chain_never_exhausted_witness :
    (Enhanced.generate_summary cfgNoKeys (str "hello there friend.")).1.status = str "success" ∧
    (Enhanced.generate_tags cfgNoKeys (str "hello there friend.")).1.status = str "success" ∧
    (Enhanced.query_file_content cfgNoKeys (str "hello there friend.") (str "what is this")).1.status
      = str "success" :=
  chain_never_exhausted cfgNoKeys (str "hello there friend.") (str "what is this") (by decide)

/-- A 311-character text forming a single sentence (no sentence punctuation)
that contains the keyword "project". -/
def longProjectText : Str := (List.replicate 39 (str "project ")).flatten

/-- Claim C2 counterexample: on `longProjectText` (one 311-character sentence)
the summarizer returns a string of 312 characters, beyond the claimed bound
of roughly 300 characters plus the three-character ellipsis budget; scaling
the same input scales the output without bound. -/
theorem summarizer_exceeds_bound :
    trimList longProjectText ≠ [] ∧
    303 < (Tagging.generate_summary longProjectText).length := by decide

theorem str_dot_len : (str ".").length = 1 := by decide

theorem str_dotspace_len : (str ". ").length = 2 := by decide

theorem str_ellipsis_len : (str "...").length = 3 := by decide

theorem greedyTrunc_shape (parts : List Str) : ∀ acc : Str,
    (acc = [] ∨ ∃ x, acc = x ++ str ". ") → acc.length ≤ 298 →
    ((Tagging.greedyTrunc parts acc = [] ∨ ∃ x, Tagging.greedyTrunc parts acc = x ++ str ". ") ∧
      (Tagging.greedyTrunc parts acc).length ≤ 298) := by
  induction parts with
  | nil => intro acc h1 h2; exact ⟨h1, h2⟩
  | cons s rest ih =>
    intro acc h1 h2
    unfold Tagging.greedyTrunc
    split
    · rename_i hlt
      apply ih
      · exact Or.inr ⟨acc ++ s, by simp⟩
      · simp only [List.length_append, str_dotspace_len] at hlt ⊢
        omega
    · exact ⟨h1, h2⟩

theorem trimList_dot_space (x : Str) :
    trimList (x ++ str ". ") = x.dropWhile isWS ++ str "." := by
  unfold trimList
  have h1 : (x ++ str ". ").dropWhile isWS = x.dropWhile isWS ++ str ". " := by
    rw [List.dropWhile_append]
    by_cases he : (x.dropWhile isWS).isEmpty
    · rw [if_pos he]
      have hx : x.dropWhile isWS = [] := by simpa using he
      rw [hx, List.nil_append]
      decide
    · rw [if_neg he]
  rw [h1]
  unfold trimRight
  have h2 : (x.dropWhile isWS ++ str ". ").reverse = ' ' :: '.' :: (x.dropWhile isWS).reverse := by
    rw [List.reverse_append]
    rfl
  rw [h2, List.dropWhile_cons, if_pos (by decide), List.dropWhile_cons, if_neg (by decide),
    List.reverse_cons, List.reverse_reverse]
  rfl

theorem endsWithL_append_dot (y : Str) : endsWithL (y ++ str ".") (str ".") = true := by
  have h : (str ".") <:+ (y ++ str ".") := List.suffix_append y (str ".")
  simp only [endsWithL, List.isSuffixOf_iff_suffix]
  exact h

theorem ne_nil_of_endsWith_dot {s : Str} (h : endsWithL s (str ".") = true) : s ≠ [] := by
  intro hs
  subst hs
  exact absurd h (by decide)

theorem shortDocSummary_ne (text : Str) (sentences : List Str) (ht : text ≠ []) :
    Tagging.shortDocSummary text sentences ≠ [] := by
  unfold Tagging.shortDocSummary
  split
  · split
    · simp [str]
    · split
      · simp [str]
      · simp [str]
  · exact ht

theorem truncExpr_bound (parts : List Str) :
    (let s2 := trimList (Tagging.greedyTrunc parts [])
     if endsWithL s2 (str ".") then s2 else s2 ++ str "...").length ≤ 303 := by
  obtain ⟨hshape, hlen⟩ := greedyTrunc_shape parts [] (Or.inl rfl) (by simp)
  rcases hshape with h0 | ⟨x, hx⟩
  · rw [h0]
    decide
  · rw [hx, trimList_dot_space, if_pos (endsWithL_append_dot _)]
    rw [hx, List.length_append, str_dotspace_len] at hlen
    have hd := (List.dropWhile_sublist (l := x) isWS).length_le
    rw [List.length_append, str_dot_len]
    omega

theorem truncExpr_ne (parts : List Str) :
    (let s2 := trimList (Tagging.greedyTrunc parts [])
     if endsWithL s2 (str ".") then s2 else s2 ++ str "...") ≠ [] := by
  dsimp only
  split
  · rename_i hend; exact ne_nil_of_endsWith_dot hend
  · simp [str]

theorem finalizeMain_ne (s1 : Str) (hs1 : s1 ≠ []) :
    (if 300 < s1.length then
       if 1 < (pySplit (str ". ") s1).length then
         (let s2 := trimList (Tagging.greedyTrunc (pySplit (str ". ") s1) [])
          if endsWithL s2 (str ".") then s2 else s2 ++ str "...")
       else s1.take 297 ++ str "..."
     else s1) ≠ [] := by
  split
  · split
    · exact truncExpr_ne _
    · simp [str]
  · exact hs1

theorem finalizeMain_bound (s1 : Str) :
    (if 300 < s1.length then
       if 1 < (pySplit (str ". ") s1).length then
         (let s2 := trimList (Tagging.greedyTrunc (pySplit (str ". ") s1) [])
          if endsWithL s2 (str ".") then s2 else s2 ++ str "...")
       else s1.take 297 ++ str "..."
     else s1).length ≤ 303 := by
  split
  · split
    · exact truncExpr_bound _
    · have := List.length_take_le 297 s1
      rw [List.length_append, str_ellipsis_len]
      omega
  · rename_i hle
    omega

theorem ensureDot_ne (j : Str) : (if endsWithL j (str ".") then j else j ++ str ".") ≠ [] := by
  split
  · rename_i hend; exact ne_nil_of_endsWith_dot hend
  · simp [str]

theorem finalizeSummary_ne (sentences ss : List Str) :
    Tagging.finalizeSummary sentences ss ≠ [] := by
  unfold Tagging.finalizeSummary
  cases ss with
  | nil =>
    dsimp only
    split
    · split
      · simp [str]
      · simp [str]
    · simp [str]
  | cons a tl =>
    dsimp only
    exact finalizeMain_ne _ (ensureDot_ne _)

theorem finalizeSummary_bound (sentences ss : List Str) (h3 : 3 ≤ sentences.length) :
    (Tagging.finalizeSummary sentences ss).length ≤ 303 := by
  unfold Tagging.finalizeSummary
  cases ss with
  | nil =>
    dsimp only
    rw [if_pos h3]
    split
    · have := List.length_take_le 300 (intercal (str ". ") (sentences.take 3) ++ str ".")
      rw [List.length_append, str_ellipsis_len]
      omega
    · rename_i hle
      omega
  | cons a tl =>
    dsimp only
    exact finalizeMain_bound _

/-- Claim C2 (amended): for every input with non-blank trimmed text the
summarizer returns a non-empty string, and whenever the trimmed text yields
at least three usable sentences (so that the ranked-bucket path runs) the
result is at most 303 characters: 300 plus the three-character ellipsis
budget, enforced by the greedy under-297 re-accumulation or the hard
truncation.  (The two-or-fewer-usable-sentences path can return an entire
unshortened sentence, which is what the counterexample exhibits.) -/
theorem summarizer_nonempty_bounded (text : Str) (h : trimList text ≠ []) :
    Tagging.generate_summary text ≠ [] ∧
    (3 ≤ (Tagging.usableSentences (trimList text)).length →
      (Tagging.generate_summary text).length ≤ 303) := by
  unfold Tagging.generate_summary
  rw [if_neg h]
  dsimp only
  by_cases hlen : (trimList text).length < 100
  · rw [if_pos hlen]
    exact ⟨h, fun _ => by omega⟩
  · rw [if_neg hlen]
    by_cases hle : (Tagging.usableSentences (trimList text)).length ≤ 2
    · rw [if_pos hle]
      exact ⟨shortDocSummary_ne _ _ h, fun h3 => absurd h3 (by omega)⟩
    · rw [if_neg hle]
      exact ⟨finalizeSummary_ne _ _, fun h3 => finalizeSummary_bound _ _ h3⟩

/-- Witness for `summarizer_nonempty_bounded`. -/
theorem summarizer_nonempty_bounded_witness :
    Tagging.generate_summary (str "The project report is here now. We achieved the goal fully there. The system is ready now. It works well for everyone today.") ≠ [] ∧
    (3 ≤ (Tagging.usableSentences (trimList (str "The project report is here now. We achieved the goal fully there. The system is ready now. It works well for everyone today."))).length →
      (Tagging.generate_summary (str "The project report is here now. We achieved the goal fully there. The system is ready now. It works well for everyone today.")).length ≤ 303) :=
  summarizer_nonempty_bounded _ (by decide)

theorem pySplitAux_ne_nil (sep : Str) : ∀ (fuel : Nat) (acc s : Str),
    pySplitAux sep fuel acc s ≠ [] := by
  intro fuel
  induction fuel with
  | zero => intro acc s; cases s <;> simp [pySplitAux]
  | succ f ih =>
    intro acc s
    cases s with
    | nil => simp [pySplitAux]
    | cons c rest =>
      unfold pySplitAux
      split
      · simp
      · exact ih _ _

theorem getLastD_irrel {α : Type} (l : List α) (h : l ≠ []) (a b : α) :
    l.getLastD a = l.getLastD b := by
  cases l with
  | nil => exact absurd rfl h
  | cons x xs => rw [List.getLastD_cons, List.getLastD_cons]

theorem pySplitAux_no_occ (sep : Str) : ∀ (B : Str) (fuel : Nat) (acc : Str),
    B.length ≤ fuel → containsL sep B = false →
    pySplitAux sep fuel acc B = [acc ++ B] := by
  intro B
  induction B with
  | nil =>
    intro fuel acc _ _
    cases fuel <;> simp [pySplitAux]
  | cons c rest ih =>
    intro fuel acc hf hc
    simp only [containsL, Bool.or_eq_false_iff] at hc
    obtain ⟨hc1, hc2⟩ := hc
    cases fuel with
    | zero => simp at hf
    | succ f =>
      unfold pySplitAux
      rw [if_neg (by simp [hc1])]
      have hf' : rest.length ≤ f := by simp only [List.length_cons] at hf; omega
      rw [ih f (acc.concat c) hf' hc2]
      simp [List.concat_eq_append, List.append_assoc]

theorem uq_ne_nil : Query.uqMarker ≠ [] := by decide

theorem uq_len : Query.uqMarker.length = 15 := by decide

/-- The marker has no self-overlap: no proper non-empty prefix of
`"User Question: "` is also a suffix, so a scan match can never straddle a
genuine occurrence of the marker. -/
theorem uq_no_overlap (k : Nat) (h1 : 0 < k) (h2 : k < 15) :
    Query.uqMarker.take k ≠ Query.uqMarker.drop (15 - k) := by
  interval_cases k <;> decide

theorem pySplitAux_after_marker : ∀ (n : Nat) (A acc B : Str) (fuel : Nat),
    A.length = n →
    (A ++ (Query.uqMarker ++ B)).length ≤ fuel →
    containsL Query.uqMarker B = false →
    (pySplitAux Query.uqMarker fuel acc (A ++ (Query.uqMarker ++ B))).getLastD [] = B := by
  intro n
  induction n using Nat.strong_induction_on with
  | _ n ih =>
    intro A acc B fuel hA hf hB
    cases A with
    | nil =>
      rw [List.nil_append] at hf ⊢
      cases fuel with
      | zero =>
        exfalso
        rw [List.length_append, uq_len] at hf
        omega
      | succ f =>
        have huq : Query.uqMarker = 'U' :: List.drop 1 Query.uqMarker := by decide
        have hcons : Query.uqMarker ++ B = 'U' :: (List.drop 1 Query.uqMarker ++ B) := by
          conv_lhs => rw [huq]
          rfl
        rw [hcons]
        unfold pySplitAux
        have hpre : Query.uqMarker.isPrefixOf ('U' :: (List.drop 1 Query.uqMarker ++ B)) = true := by
          rw [← hcons]
          simp only [List.isPrefixOf_iff_prefix]
          exact List.prefix_append _ _
        rw [if_pos ⟨uq_ne_nil, hpre⟩]
        have hdrop : (List.drop 1 Query.uqMarker ++ B).drop (Query.uqMarker.length - 1) = B := by
          rw [uq_len, show (15 : Nat) - 1 = (List.drop 1 Query.uqMarker).length from by decide]
          exact List.drop_left _ _
        rw [hdrop]
        have hlen : B.length ≤ f := by
          rw [List.length_append, uq_len] at hf
          omega
        rw [pySplitAux_no_occ Query.uqMarker B f [] hlen hB]
        simp [List.getLastD_cons]
    | cons c A' =>
      simp only [List.length_cons] at hA
      have hsc : (c :: A') ++ (Query.uqMarker ++ B) = c :: (A' ++ (Query.uqMarker ++ B)) := by simp
      cases fuel with
      | zero =>
        exfalso
        rw [hsc] at hf
        simp at hf
      | succ f =>
        rw [hsc]
        unfold pySplitAux
        by_cases hpre : Query.uqMarker.isPrefixOf (c :: (A' ++ (Query.uqMarker ++ B))) = true
        · have h15 : 15 ≤ (c :: A').length := by
            by_contra hlt
            push_neg at hlt
            have hpre' : Query.uqMarker <+: ((c :: A') ++ (Query.uqMarker ++ B)) := by
              rw [hsc]
              exact List.isPrefixOf_iff_prefix.mp hpre
            have htake : Query.uqMarker = ((c :: A') ++ (Query.uqMarker ++ B)).take 15 := by
              have h := List.prefix_iff_eq_take.mp hpre'
              rwa [uq_len] at h
            rw [List.take_append_eq_append_take,
              List.take_of_length_le (by omega : (c :: A').length ≤ 15),
              List.take_append_of_le_length (by rw [uq_len]; omega)] at htake
            have hdropA : Query.uqMarker.drop (c :: A').length
                = Query.uqMarker.take (15 - (c :: A').length) := by
              conv_lhs => rw [htake]
              rw [List.drop_left]
            have hpos : 0 < (c :: A').length := by simp
            refine uq_no_overlap (15 - (c :: A').length) (by omega) (by omega) ?_
            rw [show 15 - (15 - (c :: A').length) = (c :: A').length from by omega]
            exact hdropA.symm
          rw [if_pos ⟨uq_ne_nil, hpre⟩]
          have h14 : 14 ≤ A'.length := by
            simp only [List.length_cons] at h15
            omega
          have hdrop : (A' ++ (Query.uqMarker ++ B)).drop (Query.uqMarker.length - 1)
              = (A'.drop 14) ++ (Query.uqMarker ++ B) := by
            rw [show Query.uqMarker.length - 1 = 14 from by rw [uq_len],
              List.drop_append_of_le_length h14]
          rw [hdrop]
          have hflen : ((A'.drop 14) ++ (Query.uqMarker ++ B)).length ≤ f := by
            rw [hsc] at hf
            simp only [List.length_cons, List.length_append, List.length_drop] at hf ⊢
            omega
          have hlt : (A'.drop 14).length < n := by
            rw [List.length_drop]
            omega
          have hrec := ih (A'.drop 14).length hlt (A'.drop 14) [] B f rfl hflen hB
          rw [List.getLastD_cons, getLastD_irrel _ (pySplitAux_ne_nil _ _ _ _) acc []]
          exact hrec
        · rw [if_neg (by simp [hpre])]
          have hflen : (A' ++ (Query.uqMarker ++ B)).length ≤ f := by
            rw [hsc] at hf
            simp only [List.length_cons] at hf
            omega
          exact ih A'.length (by omega) A' (acc.concat c) B f rfl hflen hB

/-- Claim C10 counterexample: a document that itself contains
`"User Question: "` followed by budget-keyed text; the selected rule still
follows the caller's question (two different questions give two different
answers on the same document), so dispatch does not key on the document's
embedded marker. -/
theorem dispatch_depends_on_question :
    containsL Query.uqMarker (str "User Question: budget please. More text here.") = true ∧
    Query.query_answer (str "User Question: budget please. More text here.")
        (str "Give me a summary")
      ≠ Query.query_answer (str "User Question: budget please. More text here.")
        (str "what is this") := by
  decide

/-- Claim C10 (amended): the dispatch key is the lower-cased, trimmed
substring after the last occurrence of `"User Question: "` in the prompt;
because the prompt template places that marker after the embedded document,
the text after the last occurrence is always the caller's question followed
by the fixed closing instruction (whenever the question itself does not
contain the marker), for every document — including documents that contain
the marker themselves. -/
theorem dispatch_key_after_last_marker (content q : Str)
    (hq : containsL Query.uqMarker (q ++ Query.prompt_footer) = false) :
    lastSplit Query.uqMarker (Query.create_enhanced_prompt content q)
      = q ++ Query.prompt_footer := by
  unfold Query.create_enhanced_prompt lastSplit pySplit
  set content2 := if 2000 < content.length then content.take 2000 ++ str "..." else content
  have hm : str "\n\nUser Question: " = str "\n\n" ++ Query.uqMarker := by decide
  have hshape : Query.prompt_header ++ content2 ++ str "\n\nUser Question: " ++ q
        ++ Query.prompt_footer
      = (Query.prompt_header ++ content2 ++ str "\n\n")
        ++ (Query.uqMarker ++ (q ++ Query.prompt_footer)) := by
    rw [hm]
    simp [List.append_assoc]
  rw [hshape]
  exact pySplitAux_after_marker (Query.prompt_header ++ content2 ++ str "\n\n").length
    _ _ _ _ rfl (le_refl _) hq

/-- Witness for `dispatch_key_after_last_marker`. -/
theorem dispatch_key_after_last_marker_witness :
    lastSplit Query.uqMarker
        (Query.create_enhanced_prompt (str "User Question: budget. A doc.") (str "what is this"))
      = str "what is this" ++ Query.prompt_footer :=
  dispatch_key_after_last_marker _ _ (by decide)

/-- The token sequence `_extract_key_topics` counts: the whitespace-split
words of the lower-cased content, each stripped of non-alphanumeric
characters, keeping those longer than 3 characters and outside the stop-word
set. -/
def cleanedTokens (content : Str) : List Str :=
  ((splitWS (pyLower content)).map Enhanced.cleanWord).filter
    (fun w => decide (3 < w.length ∧ w ∉ Enhanced.stop_words))

/-- Index of the first occurrence of `w` (length of the list if absent). -/
def firstIdx (w : Str) : List Str → Nat
  | [] => 0
  | x :: xs => if x = w then 0 else firstIdx w xs + 1

/-- The insertion-ordered frequency table of a token list. -/
def tally (l : List Str) : List (Str × Nat) := l.foldl Enhanced.bump []

theorem word_freq_eq_tally (words : List Str) :
    Enhanced.word_freq words = tally ((words.map Enhanced.cleanWord).filter
      (fun w => decide (3 < w.length ∧ w ∉ Enhanced.stop_words))) := by
  suffices h : ∀ (Ws : List Str) (acc : List (Str × Nat)), Ws.foldl (fun acc w =>
        let cw := Enhanced.cleanWord w
        if 3 < cw.length ∧ cw ∉ Enhanced.stop_words then Enhanced.bump acc cw else acc) acc
      = ((Ws.map Enhanced.cleanWord).filter
          (fun w => decide (3 < w.length ∧ w ∉ Enhanced.stop_words))).foldl Enhanced.bump acc by
    exact h words []
  intro Ws
  induction Ws with
  | nil => intro acc; rfl
  | cons w ws ih =>
    intro acc
    simp only [List.foldl_cons, List.map_cons, List.filter_cons]
    by_cases hw : 3 < (Enhanced.cleanWord w).length ∧ Enhanced.cleanWord w ∉ Enhanced.stop_words
    · rw [if_pos hw, if_pos (by exact decide_eq_true hw), List.foldl_cons]
      exact ih _
    · rw [if_neg hw, if_neg (by simp [hw])]
      exact ih _

theorem firstIdx_append_left (w : Str) (l l' : List Str) (hw : w ∈ l) :
    firstIdx w (l ++ l') = firstIdx w l := by
  induction l with
  | nil => cases hw
  | cons x xs ih =>
    by_cases hx : x = w
    · simp [firstIdx, hx]
    · have hw' : w ∈ xs := by
        rcases List.mem_cons.mp hw with rfl | h
        · exact absurd rfl hx
        · exact h
      simp [firstIdx, hx, ih hw']

theorem firstIdx_lt_length (w : Str) (l : List Str) (hw : w ∈ l) :
    firstIdx w l < l.length := by
  induction l with
  | nil => cases hw
  | cons x xs ih =>
    by_cases hx : x = w
    · simp [firstIdx, hx]
    · have hw' : w ∈ xs := by
        rcases List.mem_cons.mp hw with rfl | h
        · exact absurd rfl hx
        · exact h
      have := ih hw'
      simp only [firstIdx, hx, if_false, List.length_cons]
      omega

theorem firstIdx_append_self (w : Str) (l : List Str) (hw : w ∉ l) :
    firstIdx w (l ++ [w]) = l.length := by
  induction l with
  | nil => simp [firstIdx]
  | cons x xs ih =>
    have hx : x ≠ w := fun h => hw (h ▸ List.mem_cons_self x xs)
    have hw' : w ∉ xs := fun h => hw (List.mem_cons_of_mem _ h)
    simp [firstIdx, hx, ih hw']

theorem bump_of_not_mem (acc : List (Str × Nat)) (w : Str) (h : w ∉ acc.map Prod.fst) :
    Enhanced.bump acc w = acc ++ [(w, 1)] := by
  induction acc with
  | nil => rfl
  | cons p rest ih =>
    obtain ⟨k, c⟩ := p
    simp only [List.map_cons, List.mem_cons, not_or] at h
    obtain ⟨h1, h2⟩ := h
    simp only [Enhanced.bump, if_neg (fun hh : k = w => h1 hh.symm), ih h2, List.cons_append]

theorem map_fst_bump (acc : List (Str × Nat)) (w : Str) :
    (Enhanced.bump acc w).map Prod.fst =
      if w ∈ acc.map Prod.fst then acc.map Prod.fst else acc.map Prod.fst ++ [w] := by
  induction acc with
  | nil => rfl
  | cons p rest ih =>
    obtain ⟨k, c⟩ := p
    by_cases hk : k = w
    · subst hk
      simp [Enhanced.bump]
    · have hk' : ¬ (w = k) := fun h => hk h.symm
      by_cases hw : w ∈ rest.map Prod.fst <;>
        simp [Enhanced.bump, hk, hk', hw, ih]

theorem bump_values (w : Str) (f : Str → Nat) : ∀ acc : List (Str × Nat),
    (acc.map Prod.fst).Nodup → (∀ p ∈ acc, p.2 = f p.1) →
    (w ∉ acc.map Prod.fst → f w = 0) →
    ∀ p ∈ Enhanced.bump acc w, p.2 = if p.1 = w then f p.1 + 1 else f p.1 := by
  intro acc
  induction acc with
  | nil =>
    intro _ _ hw0 p hp
    simp only [Enhanced.bump, List.mem_singleton] at hp
    subst hp
    simp [hw0 (by simp)]
  | cons q rest ih =>
    obtain ⟨k, c⟩ := q
    intro hnd hval hw0 p hp
    by_cases hk : k = w
    · subst hk
      simp only [Enhanced.bump, if_pos rfl] at hp
      rcases List.mem_cons.mp hp with rfl | hp'
      · have hc : c = f k := hval (k, c) (List.mem_cons_self _ _)
        simp [hc]
      · have hknot : k ∉ rest.map Prod.fst := by
          have := hnd
          simp only [List.map_cons, List.nodup_cons] at this
          exact this.1
        have hne : p.1 ≠ k := fun he => hknot (he ▸ List.mem_map_of_mem Prod.fst hp')
        rw [if_neg hne]
        exact hval p (List.mem_cons_of_mem _ hp')
    · simp only [Enhanced.bump, if_neg hk] at hp
      rcases List.mem_cons.mp hp with rfl | hp'
      · rw [if_neg hk]
        exact hval (k, c) (List.mem_cons_self _ _)
      · have hnd' : (rest.map Prod.fst).Nodup := by
          simp only [List.map_cons, List.nodup_cons] at hnd
          exact hnd.2
        have hval' : ∀ p ∈ rest, p.2 = f p.1 :=
          fun p hp => hval p (List.mem_cons_of_mem _ hp)
        have hw0' : w ∉ rest.map Prod.fst → f w = 0 := by
          intro hr
          apply hw0
          simp only [List.map_cons, List.mem_cons, not_or]
          exact ⟨fun he => hk he.symm, hr⟩
        exact ih hnd' hval' hw0' p hp'

theorem tally_spec (l : List Str) :
    (∀ p ∈ tally l, p.2 = l.count p.1) ∧
    (∀ x : Str, x ∈ (tally l).map Prod.fst ↔ x ∈ l) ∧
    ((tally l).map Prod.fst).Nodup ∧
    ((tally l).map Prod.fst).Pairwise (fun a b => firstIdx a l < firstIdx b l) := by
  induction l using List.reverseRecOn with
  | nil => simp [tally]
  | append_singleton l w ih =>
    obtain ⟨ihv, ihm, ihn, ihp⟩ := ih
    have htl : tally (l ++ [w]) = Enhanced.bump (tally l) w := by
      simp [tally, List.foldl_append]
    by_cases hw : w ∈ (tally l).map Prod.fst
    · have hwl : w ∈ l := (ihm w).mp hw
      have hkeys : (tally (l ++ [w])).map Prod.fst = (tally l).map Prod.fst := by
        rw [htl, map_fst_bump, if_pos hw]
      refine ⟨?_, ?_, ?_, ?_⟩
      · intro p hp
        rw [htl] at hp
        have hv := bump_values w (fun x => l.count x) (tally l) ihn ihv
          (fun hnw => absurd hw hnw) p hp
        rw [hv, List.count_append]
        by_cases hpw : p.1 = w
        · rw [if_pos hpw, hpw]
          simp
        · rw [if_neg hpw]
          simp [List.count_singleton', hpw]
      · intro x
        rw [hkeys, ihm x]
        simp only [List.mem_append, List.mem_singleton]
        constructor
        · exact fun h => Or.inl h
        · rintro (h | rfl)
          · exact h
          · exact hwl
      · rw [hkeys]; exact ihn
      · rw [hkeys]
        apply List.Pairwise.imp_of_mem ?_ ihp
        intro a b ha hb hab
        rw [firstIdx_append_left a l [w] ((ihm a).mp ha),
          firstIdx_append_left b l [w] ((ihm b).mp hb)]
        exact hab
    · have hwl : w ∉ l := fun h => hw ((ihm w).mpr h)
      have hbump : tally (l ++ [w]) = tally l ++ [(w, 1)] := by
        rw [htl, bump_of_not_mem _ _ hw]
      refine ⟨?_, ?_, ?_, ?_⟩
      · intro p hp
        rw [hbump] at hp
        rcases List.mem_append.mp hp with hp' | hp'
        · rw [ihv p hp', List.count_append]
          have hne : p.1 ≠ w := fun he => hw (he ▸ List.mem_map_of_mem Prod.fst hp')
          simp [List.count_singleton', hne]
        · simp only [List.mem_singleton] at hp'
          subst hp'
          rw [List.count_append]
          have h0 : l.count w = 0 := by
            rw [List.count_eq_zero]
            exact hwl
          simp [h0]
      · intro x
        rw [hbump, List.map_append]
        simp [List.mem_append, ihm x]
      · rw [hbump, List.map_append]
        simp only [List.nodup_append, List.map_cons, List.map_nil, List.nodup_singleton]
        exact ⟨ihn, trivial, by simp [List.disjoint_singleton, hw]⟩
      · rw [hbump, List.map_append, List.pairwise_append]
        refine ⟨?_, by simp, ?_⟩
        · apply List.Pairwise.imp_of_mem ?_ ihp
          intro a b ha hb hab
          rw [firstIdx_append_left a l [w] ((ihm a).mp ha),
            firstIdx_append_left b l [w] ((ihm b).mp hb)]
          exact hab
        · intro a ha b hb
          simp only [List.map_cons, List.map_nil, List.mem_singleton] at hb
          rw [hb, firstIdx_append_left a l [w] ((ihm a).mp ha), firstIdx_append_self w l hwl]
          exact firstIdx_lt_length a l ((ihm a).mp ha)

theorem sortDescBySnd_perm (l : List (Str × Nat)) :
    List.Perm (Enhanced.sortDescBySnd l) l :=
  List.perm_insertionSort _ l

theorem sortDescBySnd_sorted (l : List (Str × Nat)) :
    (Enhanced.sortDescBySnd l).Sorted (fun a b => b.2 ≤ a.2) := by
  haveI : IsTotal (Str × Nat) (fun a b => b.2 ≤ a.2) := ⟨fun a b => Nat.le_total b.2 a.2⟩
  haveI : IsTrans (Str × Nat) (fun a b => b.2 ≤ a.2) :=
    ⟨fun _ _ _ hab hbc => le_trans hbc hab⟩
  exact List.sorted_insertionSort _ l

theorem pairwise_orderedInsert (R : (Str × Nat) → (Str × Nat) → Prop) (x : Str × Nat) :
    ∀ l : List (Str × Nat),
    l.Sorted (fun a b => b.2 ≤ a.2) → l.Pairwise R →
    (∀ y ∈ l, y.2 ≤ x.2 → R x y) → (∀ y ∈ l, x.2 < y.2 → R y x) →
    (l.orderedInsert (fun a b => b.2 ≤ a.2) x).Pairwise R := by
  intro l
  induction l with
  | nil =>
    intro _ _ _ _
    simp [List.orderedInsert]
  | cons y l' ih =>
    intro hs hp hin hout
    rw [List.orderedInsert]
    split
    · rename_i hr
      refine List.pairwise_cons.mpr ⟨?_, hp⟩
      intro z hz
      rcases List.mem_cons.mp hz with rfl | hz'
      · exact hin z (List.mem_cons_self _ _) hr
      · have hzy : z.2 ≤ y.2 := (List.pairwise_cons.mp hs).1 z hz'
        exact hin z (List.mem_cons_of_mem _ hz') (le_trans hzy hr)
    · rename_i hr
      have hxy : x.2 < y.2 := Nat.lt_of_not_le hr
      refine List.pairwise_cons.mpr ⟨?_, ?_⟩
      · intro z hz
        rcases (List.mem_orderedInsert _).mp hz with rfl | hz'
        · exact hout y (List.mem_cons_self _ _) hxy
        · exact (List.pairwise_cons.mp hp).1 z hz'
      · exact ih (List.pairwise_cons.mp hs).2 (List.pairwise_cons.mp hp).2
          (fun z hz hzx => hin z (List.mem_cons_of_mem _ hz) hzx)
          (fun z hz hxz => hout z (List.mem_cons_of_mem _ hz) hxz)

theorem pairwise_sortDescBySnd (toks : List Str) : ∀ T : List (Str × Nat),
    (∀ p ∈ T, p.2 = toks.count p.1) →
    (T.map Prod.fst).Pairwise (fun a b => firstIdx a toks < firstIdx b toks) →
    (Enhanced.sortDescBySnd T).Pairwise (fun p q =>
      toks.count q.1 ≤ toks.count p.1 ∧
      (toks.count p.1 = toks.count q.1 → firstIdx p.1 toks < firstIdx q.1 toks)) := by
  intro T
  induction T with
  | nil =>
    intro _ _
    simp [Enhanced.sortDescBySnd, List.insertionSort]
  | cons p T' ih =>
    intro hval hpair
    have hson : Enhanced.sortDescBySnd (p :: T')
        = (Enhanced.sortDescBySnd T').orderedInsert (fun a b => b.2 ≤ a.2) p := rfl
    rw [hson]
    have hvalT' : ∀ q ∈ T', q.2 = toks.count q.1 :=
      fun q hq => hval q (List.mem_cons_of_mem _ hq)
    have hpair' : (p.1 :: T'.map Prod.fst).Pairwise
        (fun a b => firstIdx a toks < firstIdx b toks) := by
      simpa using hpair
    have hpairT' := (List.pairwise_cons.mp hpair').2
    have hhead := (List.pairwise_cons.mp hpair').1
    have hmem : ∀ y, y ∈ Enhanced.sortDescBySnd T' → y ∈ T' :=
      fun y hy => (sortDescBySnd_perm T').mem_iff.mp hy
    apply pairwise_orderedInsert _ _ _ (sortDescBySnd_sorted T') (ih hvalT' hpairT')
    · intro y hy hle
      have hyT' : y ∈ T' := hmem y hy
      constructor
      · rw [← hval p (List.mem_cons_self _ _), ← hvalT' y hyT']
        exact hle
      · intro _
        exact hhead y.1 (List.mem_map_of_mem Prod.fst hyT')
    · intro y hy hlt
      have hyT' : y ∈ T' := hmem y hy
      constructor
      · rw [← hval p (List.mem_cons_self _ _), ← hvalT' y hyT']
        exact le_of_lt hlt
      · intro heq
        exfalso
        rw [← hval p (List.mem_cons_self _ _), ← hvalT' y hyT'] at heq
        omega

/-- Claim C8: `_extract_key_topics` returns at most 5 tokens, each drawn
from the cleaned token sequence (lower-cased, stripped of non-alphanumerics,
length > 3, not a stop word), ordered by descending frequency in that
sequence with ties broken by first occurrence. -/
theorem extract_key_topics_spec (content : Str) :
    (Enhanced.extract_key_topics content).length ≤ 5 ∧
    (∀ w ∈ Enhanced.extract_key_topics content, w ∈ cleanedTokens content) ∧
    (Enhanced.extract_key_topics content).Pairwise (fun a b =>
      (cleanedTokens content).count b ≤ (cleanedTokens content).count a ∧
      ((cleanedTokens content).count a = (cleanedTokens content).count b →
        firstIdx a (cleanedTokens content) < firstIdx b (cleanedTokens content))) := by
  have hwf : Enhanced.word_freq (splitWS (pyLower content)) = tally (cleanedTokens content) := by
    unfold cleanedTokens
    exact word_freq_eq_tally _
  obtain ⟨hv, hm, _, hp⟩ := tally_spec (cleanedTokens content)
  have hps := pairwise_sortDescBySnd (cleanedTokens content) (tally (cleanedTokens content)) hv hp
  rw [← hwf] at hps hv hm
  refine ⟨?_, ?_, ?_⟩
  · unfold Enhanced.extract_key_topics
    rw [List.length_map]
    exact List.length_take_le 5 _
  · intro w hw
    unfold Enhanced.extract_key_topics at hw
    rcases List.mem_map.mp hw with ⟨pp, hpp, rfl⟩
    have h1 : pp ∈ Enhanced.sortDescBySnd (Enhanced.word_freq (splitWS (pyLower content))) :=
      (List.take_sublist 5 _).subset hpp
    have h2 : pp ∈ Enhanced.word_freq (splitWS (pyLower content)) :=
      (sortDescBySnd_perm _).mem_iff.mp h1
    exact (hm pp.1).mp (List.mem_map_of_mem Prod.fst h2)
  · unfold Enhanced.extract_key_topics
    rw [List.pairwise_map]
    exact (hps.sublist (List.take_sublist 5 _))

